import Mathlib

/-!
Shallow embedding of the Speech Session Manager of the spoken-word repository
(src/index.js): content locator, shared preference store over localStorage,
registry of per-region playback coordinators (Speech instances), and the event
handlers wired by createSpeeches / the module bootstrap.

Playback coordinators (the Speech class) are external collaborators; they are
modelled by their identity (a fresh numeric id per construction) and by the
commands the session manager sends them (initialize, stop, setState, destroy),
recorded in an explicit command list. The DOM is modelled as a finite tree of
nodes carrying an identity, a node type and children; a CSS selector is
modelled by its extension, a predicate on element identities. localStorage's
single slot for the state key is modelled as an optional stored value that is
either a well-formed serialization of a preference record, a corrupt text
(one that JSON parsing or subsequent key access throws on), or the empty
string (which the source's falsy check treats as absent).
-/

/-- A full utterance-options record: rate, pitch, and the language→voice map.
Numbers are modelled as rationals. -/
structure UtteranceOptions where
  rate : ℚ
  pitch : ℚ
  languageVoices : List (String × String)
deriving DecidableEq, Repr

/-- A preference record in which each of the three known keys may be absent
(`undefined` in the source): the shape of `customDefaultUtteranceOptions` and
of a parsed persisted record. -/
structure PartialUtteranceOptions where
  rate : Option ℚ
  pitch : Option ℚ
  languageVoices : Option (List (String × String))
deriving DecidableEq, Repr

/-- src/index.js line 33: built-in defaults pitch 1.0, rate 1.0, empty voices. -/
def DEFAULT_UTTERANCE_OPTIONS : UtteranceOptions :=
  { rate := 1, pitch := 1, languageVoices := [] }

/-- The record `DEFAULT_UTTERANCE_OPTIONS` viewed as one with every key present;
the default value of the `defaultUtteranceOptions` parameter of the entry
point. -/
def defaultsAsPartial : PartialUtteranceOptions :=
  { rate := some 1, pitch := some 1, languageVoices := some [] }

/-- The module-initial value of `customDefaultUtteranceOptions`: an empty
object, no keys present (src/index.js line 47). -/
def emptyPartialOptions : PartialUtteranceOptions :=
  { rate := none, pitch := none, languageVoices := none }

/-- Overlay a record with optional keys on a base record: a key present in `p`
overrides the base, an absent key keeps the base.  This is the semantics both
of `Object.assign` over these records and of the per-key
`'undefined' !== typeof sharedState[key]` loop in `getUtteranceOptions`. -/
def mergeOptions (base : UtteranceOptions) (p : PartialUtteranceOptions) : UtteranceOptions :=
  { rate := p.rate.getD base.rate
    pitch := p.pitch.getD base.pitch
    languageVoices := p.languageVoices.getD base.languageVoices }

/-- A value stored in the localStorage slot for the state key.
`json p`: a string that JSON-parses to an object whose known keys are those
present in `p` (a scalar parse result, which has no keys, is `json` of the
empty record). `corrupt`: a nonempty string on which the `try` block throws
(malformed JSON, or a parse result such as `null` on which key access throws).
`empty`: the empty string, which the source's `! localStorage.getItem(...)`
check treats as absent. -/
inductive StoredVal where
  | json (p : PartialUtteranceOptions)
  | corrupt
  | empty
deriving DecidableEq, Repr

/-- Serialization (`JSON.stringify`) of a full preference record: every known
key present. -/
def serializeState (s : UtteranceOptions) : StoredVal :=
  .json { rate := some s.rate, pitch := some s.pitch, languageVoices := some s.languageVoices }

/-- src/index.js lines 138–158, `getUtteranceOptions()`: merge built-in
defaults with the custom defaults, then overlay whatever is persisted in
localStorage, discarding (removing) a corrupt persisted value.  Takes the
module fields it reads (`customDefaultUtteranceOptions`, the storage slot) as
arguments and returns the resulting record together with the new storage slot
(the `catch` branch removes the item). -/
def getUtteranceOptions (custom : PartialUtteranceOptions) (storage : Option StoredVal) :
    UtteranceOptions × Option StoredVal :=
  let utteranceOptions := mergeOptions DEFAULT_UTTERANCE_OPTIONS custom
  match storage with
  | none => (utteranceOptions, none)
  | some .empty => (utteranceOptions, some .empty)
  | some .corrupt => (utteranceOptions, none)
  | some (.json p) => (mergeOptions utteranceOptions p, some (.json p))

/-- The known keys of a stored value, as a record with optional fields: what
the persisted value contributes to the merge.  A corrupt or empty or absent
slot contributes nothing. -/
def persistedOverlay (storage : Option StoredVal) : PartialUtteranceOptions :=
  match storage with
  | some (.json p) => p
  | _ => emptyPartialOptions

/-- A DOM node: identity (distinct nodes have distinct ids), a nodeType, and
the list of child nodes in document order. -/
inductive DomNode where
  | node (id : Nat) (nodeType : Nat) (children : List DomNode)

def DomNode.id : DomNode → Nat
  | .node i _ _ => i

def DomNode.nodeType : DomNode → Nat
  | .node _ t _ => t

def DomNode.children : DomNode → List DomNode
  | .node _ _ cs => cs

/-- The value of `Node.ELEMENT_NODE`. -/
def ELEMENT_NODE : Nat := 1

/-- A CSS selector, modelled by its extension: which element identities it
matches. -/
def Selector : Type := Nat → Bool

/-- Semantics of `node.matches(selector)`: only element nodes match a selector. -/
def DomNode.matchesSel (n : DomNode) (sel : Selector) : Bool :=
  n.nodeType == ELEMENT_NODE && sel n.id

mutual

/-- All descendants of a node (not the node itself) in document order
(preorder). -/
def allDescendants : DomNode → List DomNode
  | .node _ _ cs => allDescendantsList cs

def allDescendantsList : List DomNode → List DomNode
  | [] => []
  | c :: rest => c :: (allDescendants c ++ allDescendantsList rest)

end

/-- Semantics of `root.querySelectorAll(selector)`: every descendant element matching the
selector, in document order. -/
def querySelectorAll (root : DomNode) (sel : Selector) : List DomNode :=
  (allDescendants root).filter (fun n => n.matchesSel sel)

/-- src/index.js lines 63–70, `findContentRoots(root, selector)`: the root
itself if it matches, otherwise all matching descendants. -/
def findContentRoots (root : DomNode) (sel : Selector) : List DomNode :=
  if root.matchesSel sel then [root] else querySelectorAll root sel

example :
    getUtteranceOptions emptyPartialOptions (some .corrupt) =
      (DEFAULT_UTTERANCE_OPTIONS, none) := by
  decide

example :
    getUtteranceOptions { rate := some 2, pitch := none, languageVoices := none }
        (some (.json { rate := none, pitch := some 3, languageVoices := none })) =
      ({ rate := 2, pitch := 3, languageVoices := [] }, some (.json { rate := none, pitch := some 3, languageVoices := none })) := by
  decide

example :
    (findContentRoots (.node 1 1 [.node 2 1 []]) (fun i => i == 1 || i == 2)).map DomNode.id = [1] := by
  decide

example :
    (findContentRoots (.node 1 1 [.node 2 1 [.node 3 1 []], .node 4 3 []]) (fun i => i == 2 || i == 3 || i == 4)).map DomNode.id = [2, 3] := by
  decide

/-- A command sent by the session manager to a playback coordinator (a Speech
instance, named by its numeric identity) or to the platform. -/
inductive Cmd where
  | initSpeech (sid : Nat)
  | stop (sid : Nat)
  | setState (sid : Nat) (opts : UtteranceOptions)
  | destroy (sid : Nat)
  | persist (v : StoredVal)
  | listenUnload
  | observe (elemId : Nat)
deriving DecidableEq, Repr

/-- The module-level mutable state of src/index.js: the custom default
utterance options (line 47), the registry `speechRootMap` mapping content-root
element identity to Speech-instance identity in insertion order (line 17), a
counter supplying fresh Speech identities, and the localStorage slot for
`STATE_STORAGE_KEY`. -/
structure MState where
  customDefaultUtteranceOptions : PartialUtteranceOptions
  speechRootMap : List (Nat × Nat)
  nextSpeechId : Nat
  storage : Option StoredVal
deriving DecidableEq, Repr

/-- The check `speechRootMap.has(rootElement)`, keyed by element identity. -/
def hasKey (reg : List (Nat × Nat)) (k : Nat) : Bool :=
  reg.any (fun e => e.1 == k)

/-- The lookup `speechRootMap.get(rootElement)`, keyed by element identity. -/
def lookupKey (reg : List (Nat × Nat)) (k : Nat) : Option Nat :=
  (reg.find? (fun e => e.1 == k)).map Prod.snd

/-- src/index.js line 10. -/
def STATE_STORAGE_KEY : String := "spokenWordState"

/-- The loop body of src/index.js lines 82–120 over the located content roots:
skip an already-registered root; otherwise construct a Speech (evaluating
`getUtteranceOptions()`, which may heal the storage slot), register it under
the root, wire its handlers, and call its `initialize`. -/
def createSpeechesGo : MState → List DomNode → MState × List Cmd
  | st, [] => (st, [])
  | st, rootElement :: rest =>
    if hasKey st.speechRootMap rootElement.id then
      createSpeechesGo st rest
    else
      let res := getUtteranceOptions st.customDefaultUtteranceOptions st.storage
      let sid := st.nextSpeechId
      let st1 : MState :=
        { st with
          speechRootMap := st.speechRootMap ++ [(rootElement.id, sid)]
          nextSpeechId := sid + 1
          storage := res.2 }
      let r := createSpeechesGo st1 rest
      (r.1, Cmd.initSpeech sid :: r.2)

/-- src/index.js lines 80–121, `createSpeeches`: locate the content roots
under `element` and run the creation loop. -/
def createSpeeches (st : MState) (element : DomNode) (contentSelector : Selector) :
    MState × List Cmd :=
  createSpeechesGo st (findContentRoots element contentSelector)

/-- The loop body of src/index.js lines 168–174 over the located content
roots: if the root is registered, call the Speech's `destroy` and delete the
registry entry; otherwise do nothing. -/
def destroySpeechesGo : MState → List DomNode → MState × List Cmd
  | st, [] => (st, [])
  | st, rootElement :: rest =>
    match lookupKey st.speechRootMap rootElement.id with
    | some sid =>
      let st1 : MState :=
        { st with speechRootMap := st.speechRootMap.filter (fun e => e.1 != rootElement.id) }
      let r := destroySpeechesGo st1 rest
      (r.1, Cmd.destroy sid :: r.2)
    | none => destroySpeechesGo st rest

/-- src/index.js lines 166–175, `destroySpeeches`. -/
def destroySpeeches (st : MState) (element : DomNode) (contentSelector : Selector) :
    MState × List Cmd :=
  destroySpeechesGo st (findContentRoots element contentSelector)

/-- src/index.js lines 98–107: the handler wired to a Speech's
`change:playing` event.  `sid` is the identity of the Speech the handler was
wired for; `playing` the event payload.  Returns the commands issued. -/
def onChangePlaying (st : MState) (sid : Nat) (playing : Bool) : List Cmd :=
  if !playing then []
  else
    (st.speechRootMap.map Prod.snd).filterMap
      (fun osid => if osid != sid then some (Cmd.stop osid) else none)

/-- src/index.js lines 109–117: the handler wired to a Speech's
`sharedStateChange` event: persist the serialized record to the state key,
then push it via `setState` to every other registered Speech. -/
def onSharedStateChange (st : MState) (sid : Nat) (sharedState : UtteranceOptions) :
    MState × List Cmd :=
  ({ st with storage := some (serializeState sharedState) },
    Cmd.persist (serializeState sharedState) ::
      (st.speechRootMap.map Prod.snd).filterMap
        (fun osid => if osid != sid then some (Cmd.setState osid sharedState) else none))

/-- The loop of src/index.js lines 128–130: call
`speech.setState(getUtteranceOptions())` on each registered Speech in registry
order, evaluating `getUtteranceOptions()` afresh for each (which may heal the
storage slot). -/
def storageEventLoop : MState → List Nat → MState × List Cmd
  | st, [] => (st, [])
  | st, sid :: rest =>
    let res := getUtteranceOptions st.customDefaultUtteranceOptions st.storage
    let st1 : MState := { st with storage := res.2 }
    let r := storageEventLoop st1 rest
    (r.1, Cmd.setState sid res.1 :: r.2)

/-- src/index.js lines 124–131: the window `storage` event listener.  `key` is
`event.key`; `areaIsLocalStorage` whether `event.storageArea` is this
context's `localStorage`. -/
def onStorageEvent (st : MState) (key : String) (areaIsLocalStorage : Bool) :
    MState × List Cmd :=
  if key != STATE_STORAGE_KEY || !areaIsLocalStorage then (st, [])
  else storageEventLoop st (st.speechRootMap.map Prod.snd)

/-- Modelled from the spec: the platform's storage-change notification channel
"fires in *other* contexts (not the writer) when the underlying storage
changes" — a `storage` event for a localStorage write is dispatched to every
same-origin browsing context except the writer itself.  This dispatch rule is
browser behavior, not code of src/index.js. -/
def storageEventRecipients (writer : Nat) (contexts : List Nat) : List Nat :=
  contexts.filter (fun c => c != writer)

example : onChangePlaying ⟨emptyPartialOptions, [(10, 0), (11, 1), (12, 2)], 3, none⟩ 1 true =
    [Cmd.stop 0, Cmd.stop 2] := by decide

example : onChangePlaying ⟨emptyPartialOptions, [(10, 0), (11, 1)], 2, none⟩ 1 false = [] := by
  decide

/-- One MutationRecord: the nodes added and removed, in report order. -/
structure MutationRecord where
  addedNodes : List DomNode
  removedNodes : List DomNode

/-- Run `createSpeeches` scoped to each node of a list in turn
(src/index.js lines 220–227). -/
def createSpeechesForNodes (sel : Selector) : MState → List DomNode → MState × List Cmd
  | st, [] => (st, [])
  | st, n :: rest =>
    let r1 := createSpeeches st n sel
    let r2 := createSpeechesForNodes sel r1.1 rest
    (r2.1, r1.2 ++ r2.2)

/-- Run `destroySpeeches` scoped to each node of a list in turn
(src/index.js lines 228–233). -/
def destroySpeechesForNodes (sel : Selector) : MState → List DomNode → MState × List Cmd
  | st, [] => (st, [])
  | st, n :: rest =>
    let r1 := destroySpeeches st n sel
    let r2 := destroySpeechesForNodes sel r1.1 rest
    (r2.1, r1.2 ++ r2.2)

/-- The body of the MutationObserver callback for one mutation record
(src/index.js lines 219–234): region creation for each added element node,
then region destruction for each removed element node. -/
def handleMutation (sel : Selector) (st : MState) (m : MutationRecord) : MState × List Cmd :=
  let r1 := createSpeechesForNodes sel st
    (m.addedNodes.filter (fun n => n.nodeType == ELEMENT_NODE))
  let r2 := destroySpeechesForNodes sel r1.1
    (m.removedNodes.filter (fun n => n.nodeType == ELEMENT_NODE))
  (r2.1, r1.2 ++ r2.2)

/-- src/index.js lines 218–235: the MutationObserver callback over a batch of
mutation records, processed in report order. -/
def handleMutations (sel : Selector) : MState → List MutationRecord → MState × List Cmd
  | st, [] => (st, [])
  | st, m :: ms =>
    let r1 := handleMutation sel st m
    let r2 := handleMutations sel r1.1 ms
    (r2.1, r1.2 ++ r2.2)

/-- The three values of `document.readyState`.  The platform's one-shot
DOMContentLoaded event fires at the transition out of `loading`, so a
DOMContentLoaded listener registered while the state is `interactive` or
`complete` is never invoked. -/
inductive ReadyState where
  | loading
  | interactive
  | complete
deriving DecidableEq, Repr

/-- The host environment observed by `initialize`: whether the two
speech-synthesis globals are defined, whether the user agent matches the
mobile pattern of `HAS_SYSTEM_SUPPORT`, the document's ready state, the
document body, and the extension of the built-in `CONTENT_SELECTOR` on this
document's elements. -/
structure Env where
  speechSynthesisDefined : Bool
  speechSynthesisUtteranceDefined : Bool
  userAgentMobile : Bool
  readyState : ReadyState
  documentBody : DomNode
  contentSelectorMatches : Selector

/-- src/index.js lines 183–185, `HAS_SYSTEM_SUPPORT`: true unless the user
agent matches the Android/iPhone/iPad/iPod pattern. -/
def HAS_SYSTEM_SUPPORT (env : Env) : Bool :=
  ! env.userAgentMobile

/-- The options object accepted by the entry point; `none` means the property
was omitted, so the source's destructuring default applies.  A caller-supplied
`hasSystemSupport` function is modelled by the boolean it returns. -/
structure InitArgs where
  rootElement : Option DomNode
  contentSelector : Option Selector
  defaultUtteranceOptions : Option PartialUtteranceOptions
  hasSystemSupport : Option Bool

/-- The fate of the promise returned by the entry point within its first tick:
rejected with a reason string, resolved in the same tick, or pending until the
one-shot DOMContentLoaded signal. -/
inductive InitResult where
  | rejected (reason : String)
  | resolvedSameTick
  | pendingUntilReady
deriving DecidableEq, Repr

/-- src/index.js lines 237–258, `uponReady`: add the unload listener, create
speeches under `rootElement || document.body`, start observing that element,
and resolve. -/
def uponReady (env : Env) (args : InitArgs) (st : MState) : MState × List Cmd :=
  let element := args.rootElement.getD env.documentBody
  let sel := args.contentSelector.getD env.contentSelectorMatches
  let r := createSpeeches st element sel
  (r.1, Cmd.listenUnload :: r.2 ++ [Cmd.observe element.id])

/-- src/index.js lines 198–266, the exported `initialize` entry point: set
`customDefaultUtteranceOptions` from the argument (or its default), then in
the promise executor reject on a missing speech-synthesis API, reject when the
(supplied or default) capability check fails, and otherwise run `uponReady`
now if `'complete' === document.readyState` or register a DOMContentLoaded
listener for it. -/
def initializeModule (env : Env) (args : InitArgs) (st : MState) :
    MState × List Cmd × InitResult :=
  let st0 : MState :=
    { st with customDefaultUtteranceOptions := args.defaultUtteranceOptions.getD defaultsAsPartial }
  if !env.speechSynthesisDefined || !env.speechSynthesisUtteranceDefined then
    (st0, [], .rejected "speech_synthesis_not_supported")
  else if !(args.hasSystemSupport.getD (HAS_SYSTEM_SUPPORT env)) then
    (st0, [], .rejected "system_not_supported")
  else if env.readyState == ReadyState.complete then
    let r := uponReady env args st0
    (r.1, r.2, .resolvedSameTick)
  else
    (st0, [], .pendingUntilReady)

/-- The entry point followed by the platform's subsequent dispatch of the
one-shot DOMContentLoaded event.  DOMContentLoaded fires at the transition
out of the `loading` ready state, so the listener that the pending branch of
`initializeModule` registered later fires `uponReady` only when the call was
made while the document was still loading; a listener registered at the
`interactive` ready state is never invoked (the event has already fired), the
deferred work never runs and the promise never settles.  The third component
records whether the promise has resolved. -/
def initializeUntilReady (env : Env) (args : InitArgs) (st : MState) :
    MState × List Cmd × Bool :=
  match initializeModule env args st with
  | (st1, cmds, .rejected _) => (st1, cmds, false)
  | (st1, cmds, .resolvedSameTick) => (st1, cmds, true)
  | (st1, cmds, .pendingUntilReady) =>
    if env.readyState == ReadyState.loading then
      let r := uponReady env args st1
      (r.1, cmds ++ r.2, true)
    else
      (st1, cmds, false)

/-- The state an omitted-argument call starts the module in: empty custom
defaults, empty registry. -/
def initialState (storage : Option StoredVal) : MState :=
  { customDefaultUtteranceOptions := emptyPartialOptions
    speechRootMap := []
    nextSpeechId := 0
    storage := storage }

/-- The entry point's very first statement: overwrite the module-level
`customDefaultUtteranceOptions` with the argument (or its destructuring
default `DEFAULT_UTTERANCE_OPTIONS`). -/
def stAfterDefaults (args : InitArgs) (st : MState) : MState :=
  { st with customDefaultUtteranceOptions := args.defaultUtteranceOptions.getD defaultsAsPartial }

/- ### Helper lemmas -/

theorem mergeOptions_empty (base : UtteranceOptions) :
    mergeOptions base emptyPartialOptions = base := rfl

theorem filterMap_guard {α β : Type} (p : α → Bool) (f : α → β) (l : List α) :
    l.filterMap (fun a => if p a then some (f a) else none) = (l.filter p).map f := by
  induction l with
  | nil => rfl
  | cons a t ih =>
    by_cases h : p a = true <;> simp [List.filterMap_cons, List.filter_cons, h, ih]

theorem getUtteranceOptions_stable (custom : PartialUtteranceOptions)
    (storage : Option StoredVal) :
    getUtteranceOptions custom (getUtteranceOptions custom storage).2 =
      getUtteranceOptions custom storage := by
  cases storage with
  | none => rfl
  | some v => cases v <;> rfl

theorem hasKey_iff_mem (reg : List (Nat × Nat)) (k : Nat) :
    hasKey reg k = true ↔ k ∈ reg.map Prod.fst := by
  simp [hasKey, List.any_eq_true]

/- ### Claim theorems -/

/-- C7.  Effective-preference resolution: `getUtteranceOptions` returns the
built-in defaults overlaid by the caller-supplied custom defaults overlaid by
the keys actually present in the persisted record; a corrupt persisted value
is discarded (the slot is removed) and the default record (built-in defaults
overlaid by custom defaults) is returned.  The function is total, so no error
is thrown or propagated. -/
theorem claim7_effective_preferences (custom : PartialUtteranceOptions)
    (storage : Option StoredVal) :
    (getUtteranceOptions custom storage).1 =
      mergeOptions (mergeOptions DEFAULT_UTTERANCE_OPTIONS custom) (persistedOverlay storage) ∧
    getUtteranceOptions custom (some .corrupt) =
      (mergeOptions DEFAULT_UTTERANCE_OPTIONS custom, none) ∧
    DEFAULT_UTTERANCE_OPTIONS = { rate := 1, pitch := 1, languageVoices := [] } := by
  refine ⟨?_, rfl, rfl⟩
  cases storage with
  | none => rfl
  | some v => cases v <;> rfl

/-- C8.  Content Locator: if the root itself matches the selector the result
is exactly `[root]`, even when descendants also match; otherwise the result is
exactly the matching descendant elements of the root in document order. -/
theorem claim8_content_locator (root : DomNode) (sel : Selector) :
    (root.matchesSel sel = true → findContentRoots root sel = [root]) ∧
    (root.matchesSel sel = false →
      findContentRoots root sel =
        (allDescendants root).filter (fun n => n.matchesSel sel)) := by
  constructor <;> intro h <;> simp [findContentRoots, querySelectorAll, h]

/-- C8 witness: a root that matches the selector while its descendant matches
too yields exactly the root; a non-matching root yields its matching
descendants in document order. -/
theorem claim8_content_locator_witness :
    findContentRoots (.node 1 1 [.node 2 1 []]) (fun i => i == 1 || i == 2) =
        [.node 1 1 [.node 2 1 []]] ∧
    findContentRoots (.node 1 1 [.node 2 1 [.node 3 1 []]]) (fun i => i == 2 || i == 3) =
        [.node 2 1 [.node 3 1 []], .node 3 1 []] := by
  constructor
  · exact (claim8_content_locator (.node 1 1 [.node 2 1 []]) (fun i => i == 1 || i == 2)).1 rfl
  · exact (claim8_content_locator (.node 1 1 [.node 2 1 [.node 3 1 []]])
      (fun i => i == 2 || i == 3)).2 rfl

/-- C1.  Single-active-playback: the `change:playing` handler for Speech `sid`
issues no commands when playing turned false; when playing turned true it
issues exactly one `stop` to each other registered Speech (in registry order)
and never a `stop` to `sid` itself. -/
theorem claim1_single_active_playback (st : MState) (sid : Nat) :
    onChangePlaying st sid false = [] ∧
    onChangePlaying st sid true =
      ((st.speechRootMap.map Prod.snd).filter (fun osid => osid != sid)).map Cmd.stop ∧
    Cmd.stop sid ∉ onChangePlaying st sid true ∧
    (∀ osid, osid ∈ st.speechRootMap.map Prod.snd → osid ≠ sid →
      Cmd.stop osid ∈ onChangePlaying st sid true) ∧
    ((st.speechRootMap.map Prod.snd).Nodup →
      ∀ osid, osid ∈ st.speechRootMap.map Prod.snd → osid ≠ sid →
        (onChangePlaying st sid true).count (Cmd.stop osid) = 1) := by
  have hchar : onChangePlaying st sid true =
      ((st.speechRootMap.map Prod.snd).filter (fun osid => osid != sid)).map Cmd.stop := by
    simp only [onChangePlaying, Bool.not_true, Bool.false_eq_true, if_false]
    exact filterMap_guard (fun osid => osid != sid) Cmd.stop (st.speechRootMap.map Prod.snd)
  have hstopinj : Function.Injective Cmd.stop := by
    intro a b h
    injection h
  refine ⟨rfl, hchar, ?_, ?_, ?_⟩
  · rw [hchar]
    intro hmem
    rcases List.mem_map.mp hmem with ⟨o, ho, heq⟩
    have : o = sid := hstopinj heq
    subst this
    simp [List.mem_filter] at ho
  · intro osid hmem hne
    rw [hchar]
    refine List.mem_map.mpr ⟨osid, List.mem_filter.mpr ⟨hmem, ?_⟩, rfl⟩
    simpa using hne
  · intro hnd osid hmem hne
    rw [hchar, List.count_map_of_injective _ _ hstopinj,
      List.count_filter (by simpa using hne)]
    exact List.count_eq_one_of_mem hnd hmem

/-- C1 witness: with registry values `[0, 1, 2]` and Speech 1 becoming
active, Speeches 0 and 2 each receive exactly one stop, Speech 1 none, and a
change to false issues nothing. -/
theorem claim1_single_active_playback_witness :
    onChangePlaying ⟨emptyPartialOptions, [(10, 0), (11, 1), (12, 2)], 3, none⟩ 1 false = [] ∧
    Cmd.stop 1 ∉ onChangePlaying ⟨emptyPartialOptions, [(10, 0), (11, 1), (12, 2)], 3, none⟩ 1 true ∧
    Cmd.stop 0 ∈ onChangePlaying ⟨emptyPartialOptions, [(10, 0), (11, 1), (12, 2)], 3, none⟩ 1 true ∧
    (onChangePlaying ⟨emptyPartialOptions, [(10, 0), (11, 1), (12, 2)], 3, none⟩ 1 true).count
      (Cmd.stop 2) = 1 := by
  have h := claim1_single_active_playback ⟨emptyPartialOptions, [(10, 0), (11, 1), (12, 2)], 3, none⟩ 1
  exact ⟨h.1, h.2.2.1,
    h.2.2.2.1 0 (by decide) (by decide),
    h.2.2.2.2 (by decide) 2 (by decide) (by decide)⟩

/-- C5.  Preference propagation: the `sharedStateChange` handler for Speech
`sid` with record `R` stores the serialized record in the storage slot and,
in the same handler turn, issues `setState R` to exactly the other registered
Speeches (never to the originator); the registry itself is untouched. -/
theorem claim5_preference_propagation (st : MState) (sid : Nat) (R : UtteranceOptions) :
    (onSharedStateChange st sid R).1.storage = some (serializeState R) ∧
    (onSharedStateChange st sid R).2 =
      Cmd.persist (serializeState R) ::
        ((st.speechRootMap.map Prod.snd).filter (fun osid => osid != sid)).map
          (fun osid => Cmd.setState osid R) ∧
    Cmd.setState sid R ∉ (onSharedStateChange st sid R).2 ∧
    (∀ osid, osid ∈ st.speechRootMap.map Prod.snd → osid ≠ sid →
      Cmd.setState osid R ∈ (onSharedStateChange st sid R).2) ∧
    (onSharedStateChange st sid R).1.speechRootMap = st.speechRootMap := by
  have hchar : (onSharedStateChange st sid R).2 =
      Cmd.persist (serializeState R) ::
        ((st.speechRootMap.map Prod.snd).filter (fun osid => osid != sid)).map
          (fun osid => Cmd.setState osid R) := by
    simp only [onSharedStateChange]
    rw [filterMap_guard (fun osid => osid != sid) (fun osid => Cmd.setState osid R)]
  refine ⟨rfl, hchar, ?_, ?_, rfl⟩
  · rw [hchar]
    intro hmem
    rcases List.mem_cons.mp hmem with h | h
    · exact Cmd.noConfusion h
    · rcases List.mem_map.mp h with ⟨o, ho, heq⟩
      have : o = sid := by injection heq
      subst this
      simp [List.mem_filter] at ho
  · intro osid hmem hne
    rw [hchar]
    refine List.mem_cons.mpr (Or.inr (List.mem_map.mpr
      ⟨osid, List.mem_filter.mpr ⟨hmem, ?_⟩, rfl⟩))
    simpa using hne

/-- C5 witness: with registry values `[0, 1, 2]` and Speech 1 emitting record
R, the slot holds serialized R, Speeches 0 and 2 receive `setState R`,
Speech 1 does not. -/
theorem claim5_preference_propagation_witness :
    (onSharedStateChange ⟨emptyPartialOptions, [(10, 0), (11, 1), (12, 2)], 3, none⟩ 1
        DEFAULT_UTTERANCE_OPTIONS).1.storage =
      some (serializeState DEFAULT_UTTERANCE_OPTIONS) ∧
    Cmd.setState 1 DEFAULT_UTTERANCE_OPTIONS ∉
      (onSharedStateChange ⟨emptyPartialOptions, [(10, 0), (11, 1), (12, 2)], 3, none⟩ 1
        DEFAULT_UTTERANCE_OPTIONS).2 ∧
    Cmd.setState 2 DEFAULT_UTTERANCE_OPTIONS ∈
      (onSharedStateChange ⟨emptyPartialOptions, [(10, 0), (11, 1), (12, 2)], 3, none⟩ 1
        DEFAULT_UTTERANCE_OPTIONS).2 := by
  have h := claim5_preference_propagation
    ⟨emptyPartialOptions, [(10, 0), (11, 1), (12, 2)], 3, none⟩ 1 DEFAULT_UTTERANCE_OPTIONS
  exact ⟨h.1, h.2.2.1, h.2.2.2.1 2 (by decide) (by decide)⟩

theorem storageEventLoop_cmds (sids : List Nat) (st : MState) :
    (storageEventLoop st sids).2 =
      sids.map (fun sid => Cmd.setState sid
        (getUtteranceOptions st.customDefaultUtteranceOptions st.storage).1) := by
  induction sids generalizing st with
  | nil => rfl
  | cons a t ih =>
    simp only [storageEventLoop, List.map_cons, List.cons.injEq, true_and]
    rw [ih]
    simp [getUtteranceOptions_stable]

/-- C6.  Cross-tab convergence: the `storage` listener does nothing for a
different key or a storage area other than localStorage; for the state key in
localStorage it pushes the recomputed effective preferences via `setState` to
every registered Speech in registry order.  The dispatch model
`storageEventRecipients` (modelled from the spec) never delivers a context's
own write back to it, so this context's own writes never run the listener. -/
theorem claim6_cross_tab_convergence (st : MState) (key : String) (area : Bool) :
    (key ≠ STATE_STORAGE_KEY → onStorageEvent st key area = (st, [])) ∧
    (area = false → onStorageEvent st key area = (st, [])) ∧
    (onStorageEvent st STATE_STORAGE_KEY true).2 =
      (st.speechRootMap.map Prod.snd).map
        (fun sid => Cmd.setState sid
          (getUtteranceOptions st.customDefaultUtteranceOptions st.storage).1) ∧
    (∀ writer contexts, writer ∉ storageEventRecipients writer contexts) := by
  refine ⟨?_, ?_, ?_, ?_⟩
  · intro h
    simp [onStorageEvent, h]
  · intro h
    subst h
    simp [onStorageEvent]
  · simp only [onStorageEvent, bne_self_eq_false, Bool.not_true, Bool.or_self, Bool.false_eq_true,
      if_false]
    exact storageEventLoop_cmds (st.speechRootMap.map Prod.snd) st
  · intro writer contexts
    simp [storageEventRecipients, List.mem_filter]

/-- C6 witness: a notification for another key or for a non-localStorage area
does nothing; a matching notification pushes the effective preferences to the
two registered Speeches; the writer context is never among the recipients of
its own write. -/
theorem claim6_cross_tab_convergence_witness :
    onStorageEvent ⟨emptyPartialOptions, [(10, 0), (11, 1)], 2, some .corrupt⟩ "other" true =
      (⟨emptyPartialOptions, [(10, 0), (11, 1)], 2, some .corrupt⟩, []) ∧
    onStorageEvent ⟨emptyPartialOptions, [(10, 0), (11, 1)], 2, some .corrupt⟩
        STATE_STORAGE_KEY false =
      (⟨emptyPartialOptions, [(10, 0), (11, 1)], 2, some .corrupt⟩, []) ∧
    (onStorageEvent ⟨emptyPartialOptions, [(10, 0), (11, 1)], 2, some .corrupt⟩
        STATE_STORAGE_KEY true).2 =
      [Cmd.setState 0 DEFAULT_UTTERANCE_OPTIONS, Cmd.setState 1 DEFAULT_UTTERANCE_OPTIONS] ∧
    5 ∉ storageEventRecipients 5 [5, 6] := by
  refine ⟨?_, ?_, ?_, ?_⟩
  · exact (claim6_cross_tab_convergence ⟨emptyPartialOptions, [(10, 0), (11, 1)], 2,
      some .corrupt⟩ "other" true).1 (by decide)
  · exact (claim6_cross_tab_convergence ⟨emptyPartialOptions, [(10, 0), (11, 1)], 2,
      some .corrupt⟩ STATE_STORAGE_KEY false).2.1 rfl
  · rw [(claim6_cross_tab_convergence ⟨emptyPartialOptions, [(10, 0), (11, 1)], 2,
      some .corrupt⟩ "x" true).2.2.1]
    decide
  · exact (claim6_cross_tab_convergence ⟨emptyPartialOptions, [], 0, none⟩ "x" true).2.2.2
      5 [5, 6]

/-- A selector matching nothing; used by concrete examples. -/
def selNone : Selector := fun _ => false

/-- An options object with every property omitted; used by concrete
examples. -/
def argsEmpty : InitArgs :=
  { rootElement := none, contentSelector := none, defaultUtteranceOptions := none,
    hasSystemSupport := none }

/-- C2.  Capability rejections: with the speech-synthesis API absent the call
rejects with reason `speech_synthesis_not_supported`; otherwise, when the
supplied (or default) capability check returns false, it rejects with the
distinct reason `system_not_supported`.  In both cases no command is issued
(no region is discovered) and the registry is exactly the caller's — in
particular it remains empty when it was empty. -/
theorem claim2_capability_rejections (env : Env) (args : InitArgs) (st : MState) :
    (env.speechSynthesisDefined = false ∨ env.speechSynthesisUtteranceDefined = false →
      initializeModule env args st =
        (stAfterDefaults args st, [], .rejected "speech_synthesis_not_supported")) ∧
    (env.speechSynthesisDefined = true → env.speechSynthesisUtteranceDefined = true →
      args.hasSystemSupport.getD (HAS_SYSTEM_SUPPORT env) = false →
      initializeModule env args st =
        (stAfterDefaults args st, [], .rejected "system_not_supported")) ∧
    (stAfterDefaults args st).speechRootMap = st.speechRootMap := by
  refine ⟨?_, ?_, rfl⟩
  · rintro (h | h) <;> simp [initializeModule, stAfterDefaults, h]
  · intro h1 h2 h3
    simp [initializeModule, stAfterDefaults, h1, h2, h3]

/-- C2 witness: a host without `speechSynthesis` rejects with
`speech_synthesis_not_supported`; a mobile user agent under the default
capability check rejects with `system_not_supported`; both leave the empty
registry empty and issue no commands. -/
theorem claim2_capability_rejections_witness :
    initializeModule ⟨false, true, false, .complete, .node 0 1 [], selNone⟩ argsEmpty
        (initialState none) =
      (stAfterDefaults argsEmpty (initialState none), [],
        .rejected "speech_synthesis_not_supported") ∧
    initializeModule ⟨true, true, true, .complete, .node 0 1 [], selNone⟩ argsEmpty
        (initialState none) =
      (stAfterDefaults argsEmpty (initialState none), [], .rejected "system_not_supported") := by
  constructor
  · exact (claim2_capability_rejections ⟨false, true, false, .complete, .node 0 1 [], selNone⟩
      argsEmpty (initialState none)).1 (Or.inl rfl)
  · exact (claim2_capability_rejections ⟨true, true, true, .complete, .node 0 1 [], selNone⟩
      argsEmpty (initialState none)).2.1 rfl rfl rfl

theorem createSpeechesGo_custom (roots : List DomNode) (st : MState) :
    (createSpeechesGo st roots).1.customDefaultUtteranceOptions =
      st.customDefaultUtteranceOptions := by
  induction roots generalizing st with
  | nil => rfl
  | cons r t ih =>
    by_cases h : hasKey st.speechRootMap r.id = true <;>
      simp [createSpeechesGo, h, ih]

/-- The state change of registering one new content root: constructing the
Speech evaluates `getUtteranceOptions()` (which may heal the storage slot),
the root is mapped to the fresh Speech identity, and the identity counter
advances. -/
def stepState (st : MState) (r : DomNode) : MState :=
  { st with
    speechRootMap := st.speechRootMap ++ [(r.id, st.nextSpeechId)]
    nextSpeechId := st.nextSpeechId + 1
    storage := (getUtteranceOptions st.customDefaultUtteranceOptions st.storage).2 }

theorem createSpeechesGo_cons_skip (st : MState) (r : DomNode) (t : List DomNode)
    (h : hasKey st.speechRootMap r.id = true) :
    createSpeechesGo st (r :: t) = createSpeechesGo st t := by
  simp [createSpeechesGo, h]

theorem createSpeechesGo_cons_new (st : MState) (r : DomNode) (t : List DomNode)
    (h : hasKey st.speechRootMap r.id = false) :
    createSpeechesGo st (r :: t) =
      ((createSpeechesGo (stepState st r) t).1,
        Cmd.initSpeech st.nextSpeechId :: (createSpeechesGo (stepState st r) t).2) := by
  simp [createSpeechesGo, h, stepState]

theorem createSpeechesGo_prefix (t : List DomNode) (st : MState) :
    ∃ tail, (createSpeechesGo st t).1.speechRootMap = st.speechRootMap ++ tail := by
  induction t generalizing st with
  | nil => exact ⟨[], by simp [createSpeechesGo]⟩
  | cons a t ih =>
    by_cases h : hasKey st.speechRootMap a.id = true
    · rw [createSpeechesGo_cons_skip st a t h]
      exact ih st
    · rw [createSpeechesGo_cons_new st a t (by simpa using h)]
      obtain ⟨tail, htail⟩ := ih (stepState st a)
      refine ⟨(a.id, st.nextSpeechId) :: tail, ?_⟩
      simp only [stepState] at htail ⊢
      simp [htail]

theorem createSpeechesGo_hasKey_mono (t : List DomNode) (st : MState) (k : Nat)
    (h : hasKey st.speechRootMap k = true) :
    hasKey (createSpeechesGo st t).1.speechRootMap k = true := by
  obtain ⟨tail, htail⟩ := createSpeechesGo_prefix t st
  rw [htail]
  unfold hasKey at h ⊢
  rw [List.any_append, h, Bool.true_or]

theorem createSpeechesGo_mem_hasKey (t : List DomNode) (st : MState) (r : DomNode)
    (h : r ∈ t) :
    hasKey (createSpeechesGo st t).1.speechRootMap r.id = true := by
  induction t generalizing st with
  | nil => cases h
  | cons a t ih =>
    by_cases hk : hasKey st.speechRootMap a.id = true
    · rw [createSpeechesGo_cons_skip st a t hk]
      rcases List.mem_cons.mp h with heq | hmem
      · exact createSpeechesGo_hasKey_mono t st r.id (by rw [heq]; exact hk)
      · exact ih st hmem
    · rw [createSpeechesGo_cons_new st a t (by simpa using hk)]
      dsimp only
      rcases List.mem_cons.mp h with heq | hmem
      · apply createSpeechesGo_hasKey_mono
        rw [heq]
        simp [stepState, hasKey, List.any_append]
      · exact ih (stepState st a) hmem

theorem createSpeechesGo_skip_all (t : List DomNode) (st : MState)
    (h : ∀ r ∈ t, hasKey st.speechRootMap r.id = true) :
    createSpeechesGo st t = (st, []) := by
  induction t with
  | nil => rfl
  | cons a s ih =>
    rw [createSpeechesGo_cons_skip st a s (h a (List.mem_cons_self a s))]
    exact ih fun r hr => h r (List.mem_cons_of_mem a hr)

theorem createSpeechesGo_cmds (t : List DomNode) (st : MState) :
    (createSpeechesGo st t).2 =
      ((createSpeechesGo st t).1.speechRootMap.drop st.speechRootMap.length).map
        (fun e => Cmd.initSpeech e.2) := by
  induction t generalizing st with
  | nil => simp [createSpeechesGo]
  | cons a t ih =>
    by_cases hk : hasKey st.speechRootMap a.id = true
    · rw [createSpeechesGo_cons_skip st a t hk]
      exact ih st
    · rw [createSpeechesGo_cons_new st a t (by simpa using hk)]
      obtain ⟨tail, htail⟩ := createSpeechesGo_prefix t (stepState st a)
      dsimp only
      rw [ih (stepState st a), htail]
      have hstep : (stepState st a).speechRootMap =
          st.speechRootMap ++ [(a.id, st.nextSpeechId)] := rfl
      rw [hstep, List.drop_left, List.append_assoc, List.drop_left]
      rfl

theorem createSpeechesGo_nodup_keys (t : List DomNode) (st : MState)
    (h : (st.speechRootMap.map Prod.fst).Nodup) :
    ((createSpeechesGo st t).1.speechRootMap.map Prod.fst).Nodup := by
  induction t generalizing st with
  | nil => simpa [createSpeechesGo]
  | cons a t ih =>
    by_cases hk : hasKey st.speechRootMap a.id = true
    · rw [createSpeechesGo_cons_skip st a t hk]
      exact ih st h
    · rw [createSpeechesGo_cons_new st a t (by simpa using hk)]
      dsimp only
      apply ih
      have hnotin : a.id ∉ st.speechRootMap.map Prod.fst := by
        intro hmem
        rw [(hasKey_iff_mem st.speechRootMap a.id).mpr hmem] at hk
        exact hk rfl
      simp [stepState, List.nodup_append, h, hnotin]

/-- C3.  Region-creation idempotence: running `createSpeeches` a second time
over the same unchanged subtree changes nothing and issues no commands; a
region already present in the registry is skipped (existing entries survive
unchanged as a prefix); after the first run every located region has exactly
one registry entry; and the commands of a run are exactly one `initialize`
per newly created entry, so across both runs each region's Speech is
initialized exactly once. -/
theorem claim3_region_creation_idempotence (st : MState) (element : DomNode)
    (sel : Selector) (h : (st.speechRootMap.map Prod.fst).Nodup) :
    (createSpeeches (createSpeeches st element sel).1 element sel).1 =
        (createSpeeches st element sel).1 ∧
    (createSpeeches (createSpeeches st element sel).1 element sel).2 = [] ∧
    (∀ r ∈ findContentRoots element sel,
      ((createSpeeches st element sel).1.speechRootMap.map Prod.fst).count r.id = 1) ∧
    (∃ tail, (createSpeeches st element sel).1.speechRootMap =
      st.speechRootMap ++ tail) ∧
    (createSpeeches st element sel).2 =
      ((createSpeeches st element sel).1.speechRootMap.drop
          st.speechRootMap.length).map (fun e => Cmd.initSpeech e.2) := by
  have hsecond : createSpeeches (createSpeeches st element sel).1 element sel =
      ((createSpeeches st element sel).1, []) := by
    apply createSpeechesGo_skip_all
    intro r hr
    exact createSpeechesGo_mem_hasKey (findContentRoots element sel) st r hr
  refine ⟨by rw [hsecond], by rw [hsecond], ?_, createSpeechesGo_prefix _ st,
    createSpeechesGo_cmds _ st⟩
  intro r hr
  apply List.count_eq_one_of_mem
  · exact createSpeechesGo_nodup_keys (findContentRoots element sel) st h
  · exact (hasKey_iff_mem _ _).mp
      (createSpeechesGo_mem_hasKey (findContentRoots element sel) st r hr)

/-- C3 witness: on a body with two matching regions, the first run registers
each region once and initializes the two fresh Speeches; the second run is a
no-op issuing nothing. -/
theorem claim3_region_creation_idempotence_witness :
    (createSpeeches
        (createSpeeches (initialState none) (.node 1 1 [.node 2 1 [], .node 3 1 []])
          (fun i => i == 2 || i == 3)).1
        (.node 1 1 [.node 2 1 [], .node 3 1 []]) (fun i => i == 2 || i == 3)).2 = [] ∧
    ((createSpeeches (initialState none) (.node 1 1 [.node 2 1 [], .node 3 1 []])
        (fun i => i == 2 || i == 3)).1.speechRootMap.map Prod.fst).count 2 = 1 ∧
    (createSpeeches (initialState none) (.node 1 1 [.node 2 1 [], .node 3 1 []])
        (fun i => i == 2 || i == 3)).2 = [Cmd.initSpeech 0, Cmd.initSpeech 1] := by
  have h := claim3_region_creation_idempotence (initialState none)
    (.node 1 1 [.node 2 1 [], .node 3 1 []]) (fun i => i == 2 || i == 3)
    (by simp [initialState])
  refine ⟨h.2.1, ?_, ?_⟩
  · have hmem : DomNode.node 2 1 [] ∈
        findContentRoots (.node 1 1 [.node 2 1 [], .node 3 1 []])
          (fun i => i == 2 || i == 3) := by
      show DomNode.node 2 1 [] ∈ [DomNode.node 2 1 [], DomNode.node 3 1 []]
      exact List.mem_cons_self _ _
    exact h.2.2.1 (.node 2 1 []) hmem
  · rw [h.2.2.2.2]
    rfl

/-- C4.  Mutation handling: a mutation record is handled exactly as if its
non-element nodes were absent (they trigger nothing); a batch is processed in
report order (handling `ms1 ++ ms2` is handling `ms1`, then `ms2` from the
resulting state, with the commands concatenated); destroying a located region
that is registered issues `destroy` to its Speech and removes the registry
entry, and destroying an unregistered region is a no-op.  Within one record,
creation runs over the added element nodes and then destruction over the
removed element nodes, each scoped to its node, by definition of
`handleMutation`. -/
theorem claim4_mutation_handling (sel : Selector) (st : MState) (m : MutationRecord)
    (ms1 ms2 : List MutationRecord) (r : DomNode) :
    handleMutation sel st m =
      handleMutation sel st
        { addedNodes := m.addedNodes.filter (fun n => n.nodeType == ELEMENT_NODE)
          removedNodes := m.removedNodes.filter (fun n => n.nodeType == ELEMENT_NODE) } ∧
    handleMutations sel st (ms1 ++ ms2) =
      ((handleMutations sel (handleMutations sel st ms1).1 ms2).1,
        (handleMutations sel st ms1).2 ++
          (handleMutations sel (handleMutations sel st ms1).1 ms2).2) ∧
    (∀ sid, lookupKey st.speechRootMap r.id = some sid →
      destroySpeechesGo st [r] =
        ({ st with speechRootMap := st.speechRootMap.filter (fun e => e.1 != r.id) },
          [Cmd.destroy sid])) ∧
    (lookupKey st.speechRootMap r.id = none → destroySpeechesGo st [r] = (st, [])) := by
  refine ⟨?_, ?_, ?_, ?_⟩
  · simp [handleMutation, List.filter_filter]
  · induction ms1 generalizing st with
    | nil => simp [handleMutations]
    | cons a t ih =>
      simp only [List.cons_append, handleMutations, List.append_eq]
      rw [ih (handleMutation sel st a).1]
      simp [List.append_assoc]
  · intro sid h
    simp [destroySpeechesGo, h]
  · intro h
    simp [destroySpeechesGo, h]

/-- C4 witness: a record whose added and removed lists hold only a text node
triggers nothing; removing the registered region 7 issues `destroy 0` and
empties the registry; removing the unregistered region 9 is a no-op. -/
theorem claim4_mutation_handling_witness :
    handleMutation selNone ⟨emptyPartialOptions, [(7, 0)], 1, none⟩
        { addedNodes := [.node 8 3 []], removedNodes := [.node 9 3 []] } =
      handleMutation selNone ⟨emptyPartialOptions, [(7, 0)], 1, none⟩
        { addedNodes := [], removedNodes := [] } ∧
    destroySpeechesGo ⟨emptyPartialOptions, [(7, 0)], 1, none⟩ [.node 7 1 []] =
      (⟨emptyPartialOptions, [], 1, none⟩, [Cmd.destroy 0]) ∧
    destroySpeechesGo ⟨emptyPartialOptions, [(7, 0)], 1, none⟩ [.node 9 1 []] =
      (⟨emptyPartialOptions, [(7, 0)], 1, none⟩, []) := by
  have h1 := claim4_mutation_handling selNone ⟨emptyPartialOptions, [(7, 0)], 1, none⟩
    { addedNodes := [.node 8 3 []], removedNodes := [.node 9 3 []] } [] []
    (.node 7 1 [])
  have h2 := claim4_mutation_handling selNone ⟨emptyPartialOptions, [(7, 0)], 1, none⟩
    { addedNodes := [], removedNodes := [] } [] [] (.node 9 1 [])
  exact ⟨h1.1, h1.2.2.1 0 rfl, h2.2.2.2 rfl⟩

/-- C9.  Readiness deferral, settled against the code: once the capability
checks pass, a call made at ready state `complete` runs `uponReady`
(discovery, coordinator creation, watch activation) in the same tick and
resolves; at any other ready state the call returns pending; the deferred
`uponReady` work later runs, and the promise resolves, exactly when the call
was made while the document was still `loading`.  At ready state
`interactive` the source's `'complete' === document.readyState` check is
false, yet the DOMContentLoaded event its else-branch listens for has already
fired, so the deferred work never runs and the promise never resolves —
refuting the claim's "in every such call the promise eventually resolves". -/
theorem claim9_readiness_deferral (env : Env) (args : InitArgs) (st : MState)
    (h1 : env.speechSynthesisDefined = true)
    (h2 : env.speechSynthesisUtteranceDefined = true)
    (h3 : args.hasSystemSupport.getD (HAS_SYSTEM_SUPPORT env) = true) :
    (env.readyState = ReadyState.complete →
      initializeModule env args st =
        ((uponReady env args (stAfterDefaults args st)).1,
          (uponReady env args (stAfterDefaults args st)).2, .resolvedSameTick)) ∧
    (env.readyState ≠ ReadyState.complete →
      initializeModule env args st = (stAfterDefaults args st, [], .pendingUntilReady)) ∧
    (env.readyState = ReadyState.loading →
      initializeUntilReady env args st =
        ((uponReady env args (stAfterDefaults args st)).1,
          (uponReady env args (stAfterDefaults args st)).2, true)) ∧
    (env.readyState = ReadyState.interactive →
      initializeUntilReady env args st = (stAfterDefaults args st, [], false)) := by
  refine ⟨?_, ?_, ?_, ?_⟩
  · intro h
    simp [initializeModule, stAfterDefaults, h1, h2, h3, h]
  · intro h
    simp [initializeModule, stAfterDefaults, h1, h2, h3, h]
  · intro h
    simp [initializeUntilReady, initializeModule, stAfterDefaults, h1, h2, h3, h]
  · intro h
    simp [initializeUntilReady, initializeModule, stAfterDefaults, h1, h2, h3, h]

/-- C9 witness and failing input: with capabilities present, a call at ready
state `complete` resolves in the same tick and a call at `loading` has
resolved once the ready signal ran the deferred work; but the concrete call
at ready state `interactive` — the failing input — leaves the work unrun (no
commands, registry still empty) and the promise unresolved. -/
theorem claim9_readiness_deferral_witness :
    initializeModule ⟨true, true, false, .complete, .node 0 1 [], selNone⟩ argsEmpty
        (initialState none) =
      ((uponReady ⟨true, true, false, .complete, .node 0 1 [], selNone⟩ argsEmpty
          (stAfterDefaults argsEmpty (initialState none))).1,
        (uponReady ⟨true, true, false, .complete, .node 0 1 [], selNone⟩ argsEmpty
          (stAfterDefaults argsEmpty (initialState none))).2, .resolvedSameTick) ∧
    (initializeUntilReady ⟨true, true, false, .loading, .node 0 1 [], selNone⟩ argsEmpty
        (initialState none)).2.2 = true ∧
    initializeUntilReady ⟨true, true, false, .interactive, .node 0 1 [], selNone⟩ argsEmpty
        (initialState none) =
      (stAfterDefaults argsEmpty (initialState none), [], false) := by
  have hc := claim9_readiness_deferral ⟨true, true, false, .complete, .node 0 1 [], selNone⟩
    argsEmpty (initialState none) rfl rfl rfl
  have hl := claim9_readiness_deferral ⟨true, true, false, .loading, .node 0 1 [], selNone⟩
    argsEmpty (initialState none) rfl rfl rfl
  have hi := claim9_readiness_deferral ⟨true, true, false, .interactive, .node 0 1 [], selNone⟩
    argsEmpty (initialState none) rfl rfl rfl
  exact ⟨hc.1 rfl, by rw [hl.2.2.1 rfl], hi.2.2.2 rfl⟩

/-- C10.  Implicit state change on failure: every call overwrites the
module-level custom default utterance options with the supplied
`defaultUtteranceOptions` (or the built-in defaults when omitted) before any
capability check, so the state left behind — even by a call that rejects with
either capability reason — resolves subsequent effective preferences from the
newly supplied defaults. -/
theorem claim10_defaults_overwritten_even_on_rejection (env : Env) (args : InitArgs)
    (st : MState) :
    (initializeModule env args st).1.customDefaultUtteranceOptions =
      args.defaultUtteranceOptions.getD defaultsAsPartial ∧
    (∀ s, getUtteranceOptions
        (initializeModule env args st).1.customDefaultUtteranceOptions s =
      getUtteranceOptions (args.defaultUtteranceOptions.getD defaultsAsPartial) s) := by
  have h : (initializeModule env args st).1.customDefaultUtteranceOptions =
      args.defaultUtteranceOptions.getD defaultsAsPartial := by
    unfold initializeModule
    split
    · rfl
    · split
      · rfl
      · split
        · simpa [uponReady, createSpeeches] using
            createSpeechesGo_custom
              (findContentRoots (args.rootElement.getD env.documentBody)
                (args.contentSelector.getD env.contentSelectorMatches))
              (stAfterDefaults args st)
        · rfl
  exact ⟨h, fun s => by rw [h]⟩
